import Mathlib

/-!
# Verification of rlutils replay storage and TD3 update logic

Shallow embedding of:
* `rlutils/replay_buffers/storage/dict_storage.py` (`PyDictStorage`),
* `rlalgos/pytorch/mf/td3.py` (`TD3Agent` construction and `train_on_batch`),
* `rlutils/infra/updater.py` (`OffPolicyUpdater.update`).

Python dicts preserve insertion order, so a storage's columns and an `add`
call's data are modelled as ordered association lists.  numpy integer-array
assignment `arr[index] = item` writes positions sequentially (last write wins
on duplicate indices), which the fold below mirrors.  Machine floats are
modelled as rationals.
-/

namespace RLUtils

/-! ## PyDictStorage -/

/-- The mutable state of a `PyDictStorage`: capacity `max_size`, one column
per field (an array of `max_size` slots), the write pointer `ptr` and the
current `size`.  (`__init__` stores `max_size` and allocates the columns;
`reset` initialises `ptr` and `size`.) -/
structure StorageState (α : Type) where
  max_size : ℕ
  storage : List (String × Array α)
  ptr : ℕ
  size : ℕ
  deriving Repr, DecidableEq

/-- `PyDictStorage.get_available_indexes`:
if `ptr + batch_size > max_size` the indices are
`arange(ptr, capacity) ++ arange(batch_size - (capacity - ptr))`
(wrap to the front), else `arange(ptr, ptr + batch_size)`. -/
def get_available_indexes (ptr max_size batch_size : ℕ) : List ℕ :=
  if ptr + batch_size > max_size then
    List.range' ptr (max_size - ptr) ++ List.range (batch_size - (max_size - ptr))
  else
    List.range' ptr batch_size

/-- numpy fancy assignment `col[index] = item`: positions are written in
order, the last write winning on a duplicated index. -/
def setIndexes {α : Type} (col : Array α) (index : List ℕ) (item : List α) : Array α :=
  (List.zip index item).foldl (fun c p => c.setD p.1 p.2) col

/-- `self.storage[key][index] = item` on the keyed column map. -/
def updateCol {α : Type} (storage : List (String × Array α)) (k : String)
    (index : List ℕ) (item : List α) : List (String × Array α) :=
  storage.map (fun p => if p.1 = k then (p.1, setIndexes p.2 index item) else p)

/-- The write loop of `PyDictStorage.add`: for each field, first
`assert batch_size == item.shape[0]`, then write.  Returns the columns as
mutated so far and whether every assertion passed; on a failed assertion the
remaining fields are not touched (the exception propagates), but fields
already written stay written. -/
def writeFields {α : Type} (storage : List (String × Array α)) (index : List ℕ)
    (batch_size : ℕ) : List (String × List α) → List (String × Array α) × Bool
  | [] => (storage, true)
  | (k, item) :: tl =>
    if item.length = batch_size then
      writeFields (updateCol storage k index item) index batch_size tl
    else
      (storage, false)

/-- `PyDictStorage.add(data)`: the batch size is the first field's leading
dimension; indices come from `get_available_indexes`; each field is checked
and written in dict order; only if every check passed are `ptr` and `size`
advanced (`ptr = (ptr+b) % capacity`, `size = min(size+b, capacity)`) and the
indices returned.  `none` models the raised `AssertionError` (for empty data,
the raised `IndexError`); the returned state is the object as left behind by
the raise. -/
def StorageState.add {α : Type} (s : StorageState α) (data : List (String × List α)) :
    StorageState α × Option (List ℕ) :=
  match data with
  | [] => (s, none)
  | (_, v0) :: _ =>
    let batch_size := v0.length
    let index := get_available_indexes s.ptr s.max_size batch_size
    let res := writeFields s.storage index batch_size data
    if res.2 then
      ({ s with storage := res.1,
                ptr := (s.ptr + batch_size) % s.max_size,
                size := min (s.size + batch_size) s.max_size }, some index)
    else
      ({ s with storage := res.1 }, none)

/-- `PyDictStorage.__len__` returns `self.size`. -/
def StorageState.len {α : Type} (s : StorageState α) : ℕ := s.size

/-- A freshly constructed and `reset` storage: zero-filled columns (numpy
`np.zeros`), `ptr = 0`, `size = 0`. -/
def mkStorage {α : Type} (keys : List String) (capacity : ℕ) (zero : α) : StorageState α :=
  { max_size := capacity
    storage := keys.map (fun k => (k, Array.mkArray capacity zero))
    ptr := 0
    size := 0 }

/-- Leading dimension of the first field (what `add` takes as the batch
size); `0` for empty data. -/
def batchSizeOf {α : Type} (data : List (String × List α)) : ℕ :=
  match data with
  | [] => 0
  | (_, v) :: _ => v.length

/-- A data mapping is consistent when it is nonempty and every field's
leading dimension equals the first field's. -/
def Consistent {α : Type} (data : List (String × List α)) : Prop :=
  data ≠ [] ∧ ∀ p ∈ data, p.2.length = batchSizeOf data

instance {α : Type} (data : List (String × List α)) : Decidable (Consistent data) :=
  decidable_of_iff (0 < data.length ∧ ∀ p ∈ data, p.2.length = batchSizeOf data)
    (by unfold Consistent; rw [List.length_pos])

/-- A sequence of `add` calls (return values discarded). -/
def addSeq {α : Type} (s : StorageState α) (ds : List (List (String × List α))) :
    StorageState α :=
  ds.foldl (fun st d => (st.add d).1) s

/-- Total number of rows inserted by a sequence of `add` calls. -/
def sumBatches {α : Type} (ds : List (List (String × List α))) : ℕ :=
  (ds.map batchSizeOf).sum

/-! ## TD3Agent (`rlalgos/pytorch/mf/td3.py`)

Network parameters are modelled as flat lists of rationals; the Adam steps
on the online critic and actor (owned by the external numeric backend) enter
`train_on_batch` as the parameter vectors they produce. -/

/-- The runtime type of the Python value passed as `tau`: a float, an int,
or anything else. -/
inductive PyNum where
  | float : ℚ → PyNum
  | int : ℤ → PyNum
  | other : PyNum
  deriving Repr, DecidableEq

/-- Value of a `PyNum` as a rational (for the soft-update blend). -/
def PyNum.toRat : PyNum → ℚ
  | .float q => q
  | .int n => (n : ℚ)
  | .other => 0

/-- Value of a `PyNum` as an integer (for the hard-update period). -/
def PyNum.toInt : PyNum → ℤ
  | .float _ => 0
  | .int n => n
  | .other => 0

inductive TargetMethod where
  | soft
  | hard
  deriving Repr, DecidableEq

/-- The `isinstance` dispatch in `TD3Agent.__init__` (td3.py:37-42):
a float selects `'soft'`, an int selects `'hard'`, anything else raises
`ValueError`. -/
def tau_dispatch : PyNum → Except String TargetMethod
  | .float _ => .ok .soft
  | .int _ => .ok .hard
  | .other => .error "tau must be float or int"

/-- The configuration a `TD3Agent` keeps after `__init__`:
`target_update_method` from the `tau` dispatch, `gamma` already raised to
`n_steps` (td3.py:53), and the remaining scalar hyperparameters. -/
structure TD3Agent where
  target_update_method : TargetMethod
  tau : PyNum
  policy_update_freq : ℕ
  gamma : ℚ
  target_noise : ℚ
  noise_clip : ℚ
  act_lim : ℚ
  reward_scale : ℚ
  deriving Repr, DecidableEq

/-- `TD3Agent.__init__`: fails when `tau` is neither float nor int, and
stores `gamma ** n_steps` as the effective discount. -/
def mkTD3Agent (tau : PyNum) (policy_update_freq : ℕ) (gamma : ℚ) (n_steps : ℕ)
    (target_noise noise_clip act_lim reward_scale : ℚ) : Except String TD3Agent :=
  (tau_dispatch tau).map (fun m =>
    { target_update_method := m
      tau := tau
      policy_update_freq := policy_update_freq
      gamma := gamma ^ n_steps
      target_noise := target_noise
      noise_clip := noise_clip
      act_lim := act_lim
      reward_scale := reward_scale })

/-- Network parameters held by the agent: online and target critic and
policy, plus the `policy_updates` counter. -/
structure AgentState where
  policy_updates : ℕ
  q_net : List ℚ
  target_q_net : List ℚ
  policy_net : List ℚ
  target_policy_net : List ℚ
  deriving Repr, DecidableEq

/-- Modelled from the spec: `rlu.functional.soft_update` is imported from
outside `src/`; the spec defines it as `target = tau*online + (1-tau)*target`
applied elementwise to every parameter. -/
def soft_update (target source : List ℚ) (tau : ℚ) : List ℚ :=
  List.zipWith (fun t s => tau * s + (1 - tau) * t) target source

/-- Modelled from the spec: `rlu.functional.hard_update` is imported from
outside `src/`; the spec defines it as a periodic exact copy of the online
parameters into the target. -/
def hard_update (target source : List ℚ) : List ℚ :=
  let _ := target
  source

/-- `TD3Agent.update_target` (td3.py:88-94): soft blend or exact copy of both
target networks, by the method chosen at construction. -/
def update_target (agent : TD3Agent) (s : AgentState) : AgentState :=
  match agent.target_update_method with
  | .soft =>
    { s with target_q_net := soft_update s.target_q_net s.q_net agent.tau.toRat
             target_policy_net := soft_update s.target_policy_net s.policy_net agent.tau.toRat }
  | .hard =>
    { s with target_q_net := hard_update s.target_q_net s.q_net
             target_policy_net := hard_update s.target_policy_net s.policy_net }

/-- What one `train_on_batch` call did: how many critic gradient steps ran,
whether the actor was updated, whether the targets were synchronized. -/
structure StepInfo where
  critic_updates : ℕ
  actor_updated : Bool
  target_synced : Bool
  deriving Repr, DecidableEq

/-- `TD3Agent.train_on_batch` (td3.py:164-196): one critic update, increment
`policy_updates`, actor update when `policy_updates % policy_update_freq == 0`,
then `update_target_fn` (soft: sync when `policy_updates % 2 == 0`; hard: sync
when `policy_updates % tau == 0`) unless an explicit `update_target` argument
forces or suppresses the sync.  `q_step` and `pi_step` are the online
parameters produced by the two optimizer steps on this batch. -/
def train_on_batch (agent : TD3Agent) (s : AgentState) (q_step pi_step : List ℚ)
    (update_target_arg : Option Bool) : AgentState × StepInfo :=
  let s1 : AgentState := { s with q_net := q_step, policy_updates := s.policy_updates + 1 }
  let actor : Bool := s1.policy_updates % agent.policy_update_freq == 0
  let s2 : AgentState := if actor then { s1 with policy_net := pi_step } else s1
  let sync : Bool :=
    match update_target_arg with
    | none =>
      match agent.target_update_method with
      | .soft => s1.policy_updates % 2 == 0
      | .hard => (s1.policy_updates : ℤ) % agent.tau.toInt == 0
    | some b => b
  let s3 : AgentState := if sync then update_target agent s2 else s2
  (s3, { critic_updates := 1, actor_updated := actor, target_synced := sync })

/-- A sequence of `train_on_batch` calls (no forced `update_target`
argument), returning the final state and the number of actor updates. -/
def runTrain (agent : TD3Agent) (s : AgentState) :
    List (List ℚ × List ℚ) → AgentState × ℕ
  | [] => (s, 0)
  | step :: tl =>
    let r := train_on_batch agent s step.1 step.2 none
    let rest := runTrain agent r.1 tl
    (rest.1, (if r.2.actor_updated then 1 else 0) + rest.2)

/-- Number of actor updates among the next `n` `train_on_batch` calls when
`policy_updates` currently equals `pu` and the delay is `freq`. -/
def actorUpdateCount (pu n freq : ℕ) : ℕ :=
  match n with
  | 0 => 0
  | Nat.succ m =>
    (if (pu + 1) % freq == 0 then 1 else 0) + actorUpdateCount (pu + 1) m freq

/-- torch.clip / torch.clamp on one element: `min(max(x, lo), hi)`. -/
def clip (x lo hi : ℚ) : ℚ := min (max x lo) hi

/-- The clipped target-policy smoothing noise in `_compute_next_obs_q`
(td3.py:113-114): `epsilon = clip(randn * target_noise, -noise_clip,
noise_clip)`, elementwise over the Gaussian draw `noise`. -/
def smoothing_noise (target_noise noise_clip : ℚ) (noise : List ℚ) : List ℚ :=
  noise.map (fun g => clip (g * target_noise) (-noise_clip) noise_clip)

/-- The `next_action` used against the target critic in `_compute_next_obs_q`
(td3.py:111-116): target policy action plus clipped smoothing noise, clipped
to `[-act_lim, act_lim]`. -/
def compute_next_action (agent : TD3Agent) (target_action noise : List ℚ) : List ℚ :=
  let epsilon := smoothing_noise agent.target_noise agent.noise_clip noise
  (List.zipWith (fun a e => a + e) target_action epsilon).map
    (fun x => clip x (-agent.act_lim) agent.act_lim)

/-- Modelled from the spec: `rlu.functional.compute_target_value` is imported
from outside `src/`; the spec gives the bootstrapped target
`q_target = reward + gamma * (1 - done) * target_q` (the caller passes the
reward already divided by `reward_scale`). -/
def compute_target_value (reward gamma done next_q : ℚ) : ℚ :=
  reward + gamma * (1 - done) * next_q

/-- The target used by `train_q_network_on_batch` (td3.py:124):
`compute_target_value(rew / reward_scale, gamma_eff, done, next_q)` where
`gamma_eff` is the agent's stored discount. -/
def td3_q_target (agent : TD3Agent) (rew done next_q : ℚ) : ℚ :=
  compute_target_value (rew / agent.reward_scale) agent.gamma done next_q

/-! ## OffPolicyUpdater (`rlutils/infra/updater.py`) -/

/-- Python `int()` applied to a nonnegative-or-negative rational: truncation
toward zero, then clamped to `ℕ` by Python `range` (a negative count yields
no iterations). -/
def pyInt (q : ℚ) : ℕ := q.num.toNat / q.den

structure OffPolicyUpdater where
  update_per_step : ℚ
  update_every : ℕ
  deriving Repr, DecidableEq

/-- Observable calls made by one `OffPolicyUpdater.update` invocation. -/
inductive UpdaterEvent where
  | sample
  | train
  deriving Repr, DecidableEq

/-- `OffPolicyUpdater.update(global_step)` (updater.py:31-35): when
`global_step % update_every == 0`, run `int(update_per_step * update_every)`
iterations, each calling `replay_buffer.sample()` then
`agent.train_on_batch(data=batch)`; otherwise do nothing. -/
def OffPolicyUpdater.update (u : OffPolicyUpdater) (global_step : ℕ) : List UpdaterEvent :=
  if global_step % u.update_every == 0 then
    (List.range (pyInt (u.update_per_step * (u.update_every : ℚ)))).flatMap
      (fun _ => [UpdaterEvent.sample, UpdaterEvent.train])
  else
    []

/-! ## Storage lemmas -/

theorem writeFields_ok_iff {α : Type} (storage : List (String × Array α)) (index : List ℕ)
    (b : ℕ) (data : List (String × List α)) :
    (writeFields storage index b data).2 = true ↔ ∀ p ∈ data, p.2.length = b := by
  induction data generalizing storage with
  | nil => simp [writeFields]
  | cons hd tl ih =>
    obtain ⟨k, item⟩ := hd
    by_cases h : item.length = b
    · simp [writeFields, h, ih]
    · simp [writeFields, h]

theorem add_consistent {α : Type} (s : StorageState α) (data : List (String × List α))
    (hcon : Consistent data) :
    (s.add data).1.ptr = (s.ptr + batchSizeOf data) % s.max_size
    ∧ (s.add data).1.size = min (s.size + batchSizeOf data) s.max_size
    ∧ (s.add data).1.max_size = s.max_size
    ∧ (s.add data).2 = some (get_available_indexes s.ptr s.max_size (batchSizeOf data)) := by
  obtain ⟨hne, hall⟩ := hcon
  match data with
  | [] => exact absurd rfl hne
  | (k0, v0) :: tl =>
    have hok : (writeFields s.storage
        (get_available_indexes s.ptr s.max_size v0.length) v0.length ((k0, v0) :: tl)).2
        = true := by
      rw [writeFields_ok_iff]
      intro p hp
      exact hall p hp
    simp only [StorageState.add, batchSizeOf]
    rw [hok]
    simp

theorem add_max_size {α : Type} (s : StorageState α) (data : List (String × List α)) :
    (s.add data).1.max_size = s.max_size := by
  match data with
  | [] => rfl
  | (k0, v0) :: tl =>
    simp only [StorageState.add]
    by_cases h : (writeFields s.storage
        (get_available_indexes s.ptr s.max_size v0.length) v0.length ((k0, v0) :: tl)).2 = true
    · rw [h]
      simp
    · rw [Bool.not_eq_true] at h
      rw [h]
      simp

theorem addSeq_max_size {α : Type} (s : StorageState α)
    (ds : List (List (String × List α))) :
    (addSeq s ds).max_size = s.max_size := by
  induction ds generalizing s with
  | nil => rfl
  | cons d tl ih =>
    show (addSeq (s.add d).1 tl).max_size = s.max_size
    rw [ih, add_max_size]

theorem addSeq_size {α : Type} (s : StorageState α) (ds : List (List (String × List α)))
    (hcon : ∀ d ∈ ds, Consistent d) (hsz : s.size ≤ s.max_size) :
    (addSeq s ds).size = min (s.size + sumBatches ds) s.max_size := by
  induction ds generalizing s with
  | nil =>
    simp only [addSeq, List.foldl_nil, sumBatches, List.map_nil, List.sum_nil, Nat.add_zero]
    omega
  | cons d tl ih =>
    have hd := add_consistent s d (hcon d (List.mem_cons_self d tl))
    have hstep : (addSeq s (d :: tl)) = addSeq (s.add d).1 tl := rfl
    rw [hstep, ih (s.add d).1 (fun e he => hcon e (List.mem_cons_of_mem d he))
      (by rw [hd.2.1, hd.2.2.1]; exact Nat.min_le_right _ _)]
    rw [hd.2.1, hd.2.2.1]
    have : sumBatches (d :: tl) = batchSizeOf d + sumBatches tl := by
      simp [sumBatches]
    rw [this]
    omega

/-- C1: starting from a reset `PyDictStorage` of capacity `C`, for every
sequence of consistent `add` calls with per-call batch sizes in `[1, C]`:
after each call `ptr = (old ptr + b) % C` and `size = min(old size + b, C)`;
after the whole sequence `size = min(S, C)` where `S` is the cumulative batch
size; `len` equals `size`; and `size ≤ C` at every point. -/
theorem C1_storage_ptr_size_evolution {α : Type} (C : ℕ) (hC : 0 < C)
    (keys : List String) (zero : α) (ds : List (List (String × List α)))
    (hds : ∀ d ∈ ds, Consistent d ∧ 1 ≤ batchSizeOf d ∧ batchSizeOf d ≤ C) :
    (∀ n (hn : n < ds.length),
       (addSeq (mkStorage keys C zero) (ds.take (n + 1))).ptr
         = ((addSeq (mkStorage keys C zero) (ds.take n)).ptr
             + batchSizeOf (ds.get ⟨n, hn⟩)) % C
       ∧ (addSeq (mkStorage keys C zero) (ds.take (n + 1))).size
         = min ((addSeq (mkStorage keys C zero) (ds.take n)).size
             + batchSizeOf (ds.get ⟨n, hn⟩)) C)
    ∧ (addSeq (mkStorage keys C zero) ds).size = min (sumBatches ds) C
    ∧ (addSeq (mkStorage keys C zero) ds).len = (addSeq (mkStorage keys C zero) ds).size
    ∧ (∀ n, (addSeq (mkStorage keys C zero) (ds.take n)).size ≤ C) := by
  have hmax : ∀ l, (addSeq (mkStorage keys C zero) l).max_size = C := by
    intro l
    rw [addSeq_max_size]
    rfl
  refine ⟨?_, ?_, rfl, ?_⟩
  · intro n hn
    have htake : ds.take (n + 1) = ds.take n ++ [ds.get ⟨n, hn⟩] := by
      rw [List.take_succ]
      congr
      rw [List.getElem?_eq_getElem hn]
      rfl
    have happ : addSeq (mkStorage keys C zero) (ds.take (n + 1))
        = ((addSeq (mkStorage keys C zero) (ds.take n)).add (ds.get ⟨n, hn⟩)).1 := by
      rw [htake]
      simp only [addSeq, List.foldl_append, List.foldl_cons, List.foldl_nil]
    have hmem : ds.get ⟨n, hn⟩ ∈ ds := List.get_mem ds n hn
    have hd := add_consistent (addSeq (mkStorage keys C zero) (ds.take n))
      (ds.get ⟨n, hn⟩) (hds _ hmem).1
    rw [happ]
    rw [hd.1, hd.2.1, hmax]
    exact ⟨rfl, rfl⟩
  · have := addSeq_size (mkStorage keys C zero) ds (fun d hd => (hds d hd).1)
      (by simp [mkStorage])
    rw [this]
    simp [mkStorage]
  · intro n
    have := addSeq_size (mkStorage keys C zero) (ds.take n)
      (fun d hd => (hds d (List.take_subset n ds hd)).1) (by simp [mkStorage])
    rw [this]
    simp [mkStorage]

theorem C1_witness :
    (0 < 2
      ∧ ∀ d ∈ [[("obs", [5])], [("obs", [6, 7])]],
          Consistent d ∧ 1 ≤ batchSizeOf d ∧ batchSizeOf d ≤ 2)
    ∧ ((addSeq (mkStorage ["obs"] 2 (0 : ℕ)) [[("obs", [5])], [("obs", [6, 7])]]).size
          = min (sumBatches [[("obs", [5])], [("obs", [6, 7])]]) 2
        ∧ (∀ n, (addSeq (mkStorage ["obs"] 2 (0 : ℕ))
            ([[("obs", [5])], [("obs", [6, 7])]].take n)).size ≤ 2)) :=
  ⟨⟨by decide, by decide⟩,
    ⟨(C1_storage_ptr_size_evolution 2 (by decide) ["obs"] (0 : ℕ)
        [[("obs", [5])], [("obs", [6, 7])]] (by decide)).2.1,
     (C1_storage_ptr_size_evolution 2 (by decide) ["obs"] (0 : ℕ)
        [[("obs", [5])], [("obs", [6, 7])]] (by decide)).2.2.2⟩⟩

/-- C2: insertion is a circular overwrite.  On a fresh capacity-4 storage,
adding batches `[0,1,2]` then `[3,4,5]` wraps: the second call's write
indices are `[3,0,1]`, and the final column is `[4,5,2,3]` with `size = 4`. -/
theorem C2_circular_overwrite :
    ((mkStorage ["obs"] 4 (0 : ℕ)).add [("obs", [0, 1, 2])]).1.add
        [("obs", [3, 4, 5])]
      = ({ max_size := 4, storage := [("obs", #[4, 5, 2, 3])], ptr := 2, size := 4 },
         some [3, 0, 1])
    ∧ (((mkStorage ["obs"] 4 (0 : ℕ)).add [("obs", [0, 1, 2])]).1.add
        [("obs", [3, 4, 5])]).1.size = 4 := by
  constructor
  · decide
  · decide

/-- C3 counterexample: an `add` whose second field has a different leading
dimension raises, with `ptr`/`size` untouched, but the first field's column
has already been overwritten — the storage is *not* left completely
unchanged. -/
theorem C3_counterexample :
    ((mkStorage ["a", "b"] 2 (0 : ℕ)).add [("a", [10]), ("b", [7, 8])]).2 = none
    ∧ ((mkStorage ["a", "b"] 2 (0 : ℕ)).add [("a", [10]), ("b", [7, 8])]).1.storage
        ≠ (mkStorage ["a", "b"] 2 (0 : ℕ)).storage
    ∧ ((mkStorage ["a", "b"] 2 (0 : ℕ)).add [("a", [10]), ("b", [7, 8])]).1.storage
        = [("a", #[10, 0]), ("b", #[0, 0])] := by
  refine ⟨by decide, by decide, by decide⟩

/-- C3 (amended): an `add` with inconsistent batch sizes raises and leaves
`ptr`, `size` and the capacity unchanged, but fields preceding the first
inconsistent field may already have been written when the error is raised. -/
theorem C3_amended_no_ptr_size_change {α : Type} (s : StorageState α)
    (data : List (String × List α))
    (hinc : ¬ ∀ p ∈ data, p.2.length = batchSizeOf data) :
    (s.add data).2 = none ∧ (s.add data).1.ptr = s.ptr
    ∧ (s.add data).1.size = s.size ∧ (s.add data).1.max_size = s.max_size := by
  match data with
  | [] => exact absurd (by simp) hinc
  | (k0, v0) :: tl =>
    have hok : (writeFields s.storage
        (get_available_indexes s.ptr s.max_size v0.length) v0.length ((k0, v0) :: tl)).2
        = false := by
      rw [← Bool.not_eq_true, writeFields_ok_iff]
      simpa [batchSizeOf] using hinc
    simp only [StorageState.add]
    rw [hok]
    simp

theorem C3_amended_witness :
    (¬ ∀ p ∈ [("a", [(10 : ℕ)]), ("b", [7, 8])],
        p.2.length = batchSizeOf [("a", [(10 : ℕ)]), ("b", [7, 8])])
    ∧ ((mkStorage ["a", "b"] 2 (0 : ℕ)).add [("a", [10]), ("b", [7, 8])]).2 = none
    ∧ ((mkStorage ["a", "b"] 2 (0 : ℕ)).add [("a", [10]), ("b", [7, 8])]).1.ptr
        = (mkStorage ["a", "b"] 2 (0 : ℕ)).ptr :=
  ⟨by decide,
    (C3_amended_no_ptr_size_change (mkStorage ["a", "b"] 2 (0 : ℕ))
      [("a", [10]), ("b", [7, 8])] (by decide)).imp id (fun h => h.1)⟩

/-- C10: for `1 ≤ batch_size ≤ capacity` and `ptr < capacity`,
`get_available_indexes` returns exactly `batch_size` pairwise-distinct
indices, all below `capacity`; for `batch_size > capacity` distinctness
fails (at `ptr = 0`, `capacity = 2`, `batch_size = 3`). -/
theorem C10_indexes_in_bounds (C p b : ℕ) (hb1 : 1 ≤ b) (hbC : b ≤ C) (hp : p < C) :
    (get_available_indexes p C b).length = b
    ∧ (get_available_indexes p C b).Nodup
    ∧ (∀ i ∈ get_available_indexes p C b, i < C)
    ∧ ¬ (get_available_indexes 0 2 3).Nodup := by
  refine ⟨?_, ?_, ?_, by decide⟩
  · unfold get_available_indexes
    by_cases h : p + b > C
    · simp only [h, if_pos, List.length_append, List.length_range', List.length_range]
      omega
    · simp [h]
  · unfold get_available_indexes
    by_cases h : p + b > C
    · simp only [h, if_pos]
      refine List.Nodup.append (List.nodup_range' _ _) (List.nodup_range _) ?_
      intro a ha hb
      rw [List.mem_range'_1] at ha
      rw [List.mem_range] at hb
      omega
    · simp only [h, if_neg, not_false_iff]
      exact List.nodup_range' _ _
  · intro i hi
    unfold get_available_indexes at hi
    by_cases h : p + b > C
    · rw [if_pos h, List.mem_append, List.mem_range'_1, List.mem_range] at hi
      omega
    · rw [if_neg h, List.mem_range'_1] at hi
      omega

theorem C10_witness :
    (1 ≤ 3 ∧ 3 ≤ 4 ∧ 3 < 4)
    ∧ ((get_available_indexes 3 4 3).length = 3
        ∧ (get_available_indexes 3 4 3).Nodup
        ∧ ∀ i ∈ get_available_indexes 3 4 3, i < 4) :=
  ⟨⟨by decide, by decide, by decide⟩,
    (C10_indexes_in_bounds 4 3 3 (by decide) (by decide) (by decide)).imp id
      (fun h => ⟨h.1, h.2.1⟩)⟩

/-! ## TD3 lemmas -/

theorem update_target_policy_updates (a : TD3Agent) (s : AgentState) :
    (update_target a s).policy_updates = s.policy_updates := by
  unfold update_target
  cases a.target_update_method <;> rfl

theorem update_target_online_nets (a : TD3Agent) (s : AgentState) :
    (update_target a s).q_net = s.q_net ∧ (update_target a s).policy_net = s.policy_net := by
  unfold update_target
  cases a.target_update_method <;> exact ⟨rfl, rfl⟩

theorem train_on_batch_policy_updates (a : TD3Agent) (s : AgentState) (q pi : List ℚ)
    (arg : Option Bool) :
    (train_on_batch a s q pi arg).1.policy_updates = s.policy_updates + 1 := by
  unfold train_on_batch
  dsimp only
  split
  · rw [update_target_policy_updates]
    split <;> rfl
  · split <;> rfl

theorem train_on_batch_actor_updated (a : TD3Agent) (s : AgentState) (q pi : List ℚ)
    (arg : Option Bool) :
    (train_on_batch a s q pi arg).2.actor_updated
      = ((s.policy_updates + 1) % a.policy_update_freq == 0) := rfl

theorem train_on_batch_critic_updates (a : TD3Agent) (s : AgentState) (q pi : List ℚ)
    (arg : Option Bool) :
    (train_on_batch a s q pi arg).2.critic_updates = 1 := rfl

theorem runTrain_count (a : TD3Agent) (s : AgentState) (steps : List (List ℚ × List ℚ)) :
    (runTrain a s steps).2
      = actorUpdateCount s.policy_updates steps.length a.policy_update_freq := by
  induction steps generalizing s with
  | nil => rfl
  | cons st tl ih =>
    simp only [runTrain, List.length_cons]
    rw [ih, train_on_batch_policy_updates, train_on_batch_actor_updated]
    rfl

/-- C4: each `train_on_batch` performs exactly one critic update and
increments `policy_updates`; the actor update runs exactly when the
incremented `policy_updates` is divisible by `policy_update_freq`; with
`policy_update_freq = 2`, ten calls from `policy_updates = 0` perform
exactly 5 actor updates. -/
theorem C4_delayed_policy_update (agent : TD3Agent) (hf : 0 < agent.policy_update_freq)
    (s : AgentState) (q pi : List ℚ) (arg : Option Bool)
    (steps : List (List ℚ × List ℚ)) :
    ((train_on_batch agent s q pi arg).2.critic_updates = 1
     ∧ (train_on_batch agent s q pi arg).1.policy_updates = s.policy_updates + 1
     ∧ ((train_on_batch agent s q pi arg).2.actor_updated = true
         ↔ (s.policy_updates + 1) % agent.policy_update_freq = 0))
    ∧ (agent.policy_update_freq = 2 → s.policy_updates = 0 → steps.length = 10 →
        (runTrain agent s steps).2 = 5) := by
  refine ⟨⟨rfl, train_on_batch_policy_updates agent s q pi arg, ?_⟩, ?_⟩
  · rw [train_on_batch_actor_updated]
    exact beq_iff_eq
  · intro hfreq hpu hlen
    rw [runTrain_count, hpu, hlen, hfreq]
    decide

theorem C4_witness :
    (0 < ({ target_update_method := .soft, tau := .float 1, policy_update_freq := 2,
            gamma := 1, target_noise := 1, noise_clip := 1, act_lim := 1,
            reward_scale := 1 } : TD3Agent).policy_update_freq)
    ∧ (runTrain
        { target_update_method := .soft, tau := .float 1, policy_update_freq := 2,
          gamma := 1, target_noise := 1, noise_clip := 1, act_lim := 1, reward_scale := 1 }
        { policy_updates := 0, q_net := [], target_q_net := [], policy_net := [],
          target_policy_net := [] }
        (List.replicate 10 ([], []))).2 = 5 :=
  ⟨by decide,
    (C4_delayed_policy_update
      { target_update_method := .soft, tau := .float 1, policy_update_freq := 2,
        gamma := 1, target_noise := 1, noise_clip := 1, act_lim := 1, reward_scale := 1 }
      (by decide)
      { policy_updates := 0, q_net := [], target_q_net := [], policy_net := [],
        target_policy_net := [] }
      [] [] none (List.replicate 10 ([], []))).2 rfl rfl rfl⟩

/-- C5: the runtime type of `tau` selects the target-sync mode at
construction: float gives `soft`, int gives `hard` (with `tau` then an
integer period: in hard mode a sync happens exactly when the incremented
`policy_updates` is divisible by `tau`, and the sync is an exact copy of the
online networks into the targets), and any other type is a construction-time
`ValueError`. -/
theorem C5_tau_type_selects_method (tau_f : ℚ) (t : ℤ) (ht : 0 < t)
    (freq : ℕ) (gamma : ℚ) (n : ℕ) (tn nc al rs : ℚ) (agent : TD3Agent)
    (hA : mkTD3Agent (.int t) freq gamma n tn nc al rs = .ok agent)
    (s : AgentState) (qs ps : List ℚ) :
    (mkTD3Agent (.float tau_f) freq gamma n tn nc al rs).map TD3Agent.target_update_method
        = .ok .soft
    ∧ agent.target_update_method = .hard
    ∧ mkTD3Agent .other freq gamma n tn nc al rs = .error "tau must be float or int"
    ∧ ((train_on_batch agent s qs ps none).2.target_synced = true
        ↔ ((s.policy_updates + 1 : ℕ) : ℤ) % t = 0)
    ∧ (((s.policy_updates + 1 : ℕ) : ℤ) % t = 0 →
        (train_on_batch agent s qs ps none).1.target_q_net
          = (train_on_batch agent s qs ps none).1.q_net
        ∧ (train_on_batch agent s qs ps none).1.target_policy_net
          = (train_on_batch agent s qs ps none).1.policy_net) := by
  simp only [mkTD3Agent, tau_dispatch, Except.map, Except.ok.injEq] at hA
  subst hA
  refine ⟨rfl, rfl, rfl, ?_, ?_⟩
  · show ((((s.policy_updates + 1 : ℕ) : ℤ) % PyNum.toInt (.int t) == 0) = true) ↔ _
    rw [PyNum.toInt]
    exact beq_iff_eq
  · intro hdvd
    have hsync : ((((s.policy_updates + 1 : ℕ) : ℤ) % PyNum.toInt (.int t) == 0) = true) := by
      rw [PyNum.toInt]
      exact beq_iff_eq.mpr hdvd
    unfold train_on_batch
    dsimp only
    rw [hsync]
    simp only [if_pos]
    unfold update_target hard_update
    dsimp only
    split <;> exact ⟨rfl, rfl⟩

theorem C5_witness :
    ((0 : ℤ) < 3)
    ∧ (mkTD3Agent (.float (1 / 200)) 2 (99 / 100) 1 (1 / 5) (1 / 2) 1 1).map
        TD3Agent.target_update_method = .ok .soft
    ∧ ({ target_update_method := .hard, tau := .int 3, policy_update_freq := 2,
         gamma := (99 / 100 : ℚ) ^ 1, target_noise := 1 / 5, noise_clip := 1 / 2,
         act_lim := 1, reward_scale := 1 } : TD3Agent).target_update_method = .hard
    ∧ mkTD3Agent .other 2 (99 / 100) 1 (1 / 5) (1 / 2) 1 1
        = .error "tau must be float or int" :=
  ⟨by decide,
    (C5_tau_type_selects_method (1 / 200) 3 (by decide) 2 (99 / 100) 1 (1 / 5) (1 / 2) 1 1
      { target_update_method := .hard, tau := .int 3, policy_update_freq := 2,
        gamma := (99 / 100 : ℚ) ^ 1, target_noise := 1 / 5, noise_clip := 1 / 2,
        act_lim := 1, reward_scale := 1 } rfl
      { policy_updates := 0, q_net := [], target_q_net := [], policy_net := [],
        target_policy_net := [] } [] []).1,
    (C5_tau_type_selects_method (1 / 200) 3 (by decide) 2 (99 / 100) 1 (1 / 5) (1 / 2) 1 1
      { target_update_method := .hard, tau := .int 3, policy_update_freq := 2,
        gamma := (99 / 100 : ℚ) ^ 1, target_noise := 1 / 5, noise_clip := 1 / 2,
        act_lim := 1, reward_scale := 1 } rfl
      { policy_updates := 0, q_net := [], target_q_net := [], policy_net := [],
        target_policy_net := [] } [] []).2.1,
    (C5_tau_type_selects_method (1 / 200) 3 (by decide) 2 (99 / 100) 1 (1 / 5) (1 / 2) 1 1
      { target_update_method := .hard, tau := .int 3, policy_update_freq := 2,
        gamma := (99 / 100 : ℚ) ^ 1, target_noise := 1 / 5, noise_clip := 1 / 2,
        act_lim := 1, reward_scale := 1 } rfl
      { policy_updates := 0, q_net := [], target_q_net := [], policy_net := [],
        target_policy_net := [] } [] []).2.2.1⟩

/-- C6: in the soft branch, with no forced `update_target` argument, target
synchronization happens exactly on calls where the incremented
`policy_updates` is divisible by 2, whatever `policy_update_freq` is. -/
theorem C6_soft_sync_every_two_policy_updates (agent : TD3Agent)
    (hsoft : agent.target_update_method = TargetMethod.soft)
    (hf : 0 < agent.policy_update_freq) (s : AgentState) (qs ps : List ℚ) :
    (train_on_batch agent s qs ps none).2.target_synced = true
      ↔ (s.policy_updates + 1) % 2 = 0 := by
  unfold train_on_batch
  dsimp only
  rw [hsoft]
  exact beq_iff_eq

theorem C6_witness :
    (({ target_update_method := .soft, tau := .float (1 / 200), policy_update_freq := 3,
        gamma := 1, target_noise := 1, noise_clip := 1, act_lim := 1,
        reward_scale := 1 } : TD3Agent).target_update_method = TargetMethod.soft
      ∧ 0 < (3 : ℕ))
    ∧ ((train_on_batch
          { target_update_method := .soft, tau := .float (1 / 200),
            policy_update_freq := 3, gamma := 1, target_noise := 1, noise_clip := 1,
            act_lim := 1, reward_scale := 1 }
          { policy_updates := 1, q_net := [], target_q_net := [], policy_net := [],
            target_policy_net := [] } [] [] none).2.target_synced = true
        ↔ (1 + 1) % 2 = 0) :=
  ⟨⟨rfl, by decide⟩,
    C6_soft_sync_every_two_policy_updates
      { target_update_method := .soft, tau := .float (1 / 200), policy_update_freq := 3,
        gamma := 1, target_noise := 1, noise_clip := 1, act_lim := 1, reward_scale := 1 }
      rfl (by decide)
      { policy_updates := 1, q_net := [], target_q_net := [], policy_net := [],
        target_policy_net := [] } [] []⟩

/-! ## Clipping lemmas -/

theorem clip_le_upper (x lo hi : ℚ) : clip x lo hi ≤ hi := min_le_right _ _

theorem lower_le_clip (x lo hi : ℚ) (h : lo ≤ hi) : lo ≤ clip x lo hi :=
  le_min (le_max_right _ _) h

/-- C7: the smoothing noise is clipped to `[-noise_clip, noise_clip]` before
being added to the target policy action, and the resulting `next_action` is
clipped to `[-act_lim, act_lim]`, for every Gaussian draw; with action bound
1 it lies within `[-1, 1]`. -/
theorem C7_next_action_within_bounds (agent : TD3Agent)
    (hnc : 0 ≤ agent.noise_clip) (hal : 0 ≤ agent.act_lim)
    (act noise : List ℚ) :
    (∀ e ∈ smoothing_noise agent.target_noise agent.noise_clip noise,
        -agent.noise_clip ≤ e ∧ e ≤ agent.noise_clip)
    ∧ (∀ x ∈ compute_next_action agent act noise,
        -agent.act_lim ≤ x ∧ x ≤ agent.act_lim)
    ∧ (agent.act_lim = 1 →
        ∀ x ∈ compute_next_action agent act noise, -1 ≤ x ∧ x ≤ 1) := by
  have hnc' : -agent.noise_clip ≤ agent.noise_clip := le_trans (neg_nonpos.mpr hnc) hnc
  have hal' : -agent.act_lim ≤ agent.act_lim := le_trans (neg_nonpos.mpr hal) hal
  have hmain : ∀ x ∈ compute_next_action agent act noise,
      -agent.act_lim ≤ x ∧ x ≤ agent.act_lim := by
    intro x hx
    unfold compute_next_action at hx
    rw [List.mem_map] at hx
    obtain ⟨y, _, rfl⟩ := hx
    exact ⟨lower_le_clip y _ _ hal', clip_le_upper y _ _⟩
  refine ⟨?_, hmain, ?_⟩
  · intro e he
    unfold smoothing_noise at he
    rw [List.mem_map] at he
    obtain ⟨g, _, rfl⟩ := he
    exact ⟨lower_le_clip _ _ _ hnc', clip_le_upper _ _ _⟩
  · intro h1 x hx
    have := hmain x hx
    rw [h1] at this
    exact this

theorem C7_witness :
    (0 ≤ (({ target_update_method := .soft, tau := .float (1 / 200),
             policy_update_freq := 2, gamma := 1, target_noise := 1 / 5,
             noise_clip := 1 / 2, act_lim := 1,
             reward_scale := 1 } : TD3Agent)).noise_clip
      ∧ 0 ≤ (({ target_update_method := .soft, tau := .float (1 / 200),
                policy_update_freq := 2, gamma := 1, target_noise := 1 / 5,
                noise_clip := 1 / 2, act_lim := 1,
                reward_scale := 1 } : TD3Agent)).act_lim)
    ∧ (∀ x ∈ compute_next_action
          { target_update_method := .soft, tau := .float (1 / 200),
            policy_update_freq := 2, gamma := 1, target_noise := 1 / 5,
            noise_clip := 1 / 2, act_lim := 1, reward_scale := 1 }
          [3 / 10] [7], -1 ≤ x ∧ x ≤ 1) :=
  ⟨⟨by simp, by simp⟩,
    (C7_next_action_within_bounds
      { target_update_method := .soft, tau := .float (1 / 200), policy_update_freq := 2,
        gamma := 1, target_noise := 1 / 5, noise_clip := 1 / 2, act_lim := 1,
        reward_scale := 1 } (by simp) (by simp) [3 / 10] [7]).2.2 rfl⟩

/-- C8: construction stores `gamma ** n_steps` as the effective discount and
the critic target is `rew/reward_scale + gamma**n_steps * (1 - done) *
target_q`. -/
theorem C8_nstep_discount (gamma : ℚ) (n : ℕ) (tau_f : ℚ) (freq : ℕ)
    (tn nc al rs : ℚ) (agent : TD3Agent)
    (hA : mkTD3Agent (.float tau_f) freq gamma n tn nc al rs = .ok agent)
    (rew done next_q : ℚ) :
    agent.gamma = gamma ^ n
    ∧ td3_q_target agent rew done next_q
        = rew / rs + gamma ^ n * (1 - done) * next_q := by
  simp only [mkTD3Agent, tau_dispatch, Except.map, Except.ok.injEq] at hA
  subst hA
  exact ⟨rfl, rfl⟩

theorem C8_witness :
    (mkTD3Agent (.float (1 / 200)) 2 (99 / 100) 3 (1 / 5) (1 / 2) 1 2
        = .ok { target_update_method := .soft, tau := .float (1 / 200),
                policy_update_freq := 2, gamma := (99 / 100 : ℚ) ^ 3,
                target_noise := 1 / 5, noise_clip := 1 / 2, act_lim := 1,
                reward_scale := 2 })
    ∧ ({ target_update_method := .soft, tau := .float (1 / 200),
         policy_update_freq := 2, gamma := (99 / 100 : ℚ) ^ 3, target_noise := 1 / 5,
         noise_clip := 1 / 2, act_lim := 1, reward_scale := 2 } : TD3Agent).gamma
        = (99 / 100 : ℚ) ^ 3
    ∧ td3_q_target
        { target_update_method := .soft, tau := .float (1 / 200), policy_update_freq := 2,
          gamma := (99 / 100 : ℚ) ^ 3, target_noise := 1 / 5, noise_clip := 1 / 2,
          act_lim := 1, reward_scale := 2 } 5 0 4
        = 5 / 2 + (99 / 100 : ℚ) ^ 3 * (1 - 0) * 4 :=
  ⟨rfl,
    (C8_nstep_discount (99 / 100) 3 (1 / 200) 2 (1 / 5) (1 / 2) 1 2
      { target_update_method := .soft, tau := .float (1 / 200), policy_update_freq := 2,
        gamma := (99 / 100 : ℚ) ^ 3, target_noise := 1 / 5, noise_clip := 1 / 2,
        act_lim := 1, reward_scale := 2 } rfl 5 0 4).1,
    (C8_nstep_discount (99 / 100) 3 (1 / 200) 2 (1 / 5) (1 / 2) 1 2
      { target_update_method := .soft, tau := .float (1 / 200), policy_update_freq := 2,
        gamma := (99 / 100 : ℚ) ^ 3, target_noise := 1 / 5, noise_clip := 1 / 2,
        act_lim := 1, reward_scale := 2 } rfl 5 0 4).2⟩

/-! ## Updater lemmas -/

theorem count_pair_flatMap (l : List ℕ) :
    ((l.flatMap (fun _ => [UpdaterEvent.sample, UpdaterEvent.train])).count
        UpdaterEvent.sample = l.length)
    ∧ ((l.flatMap (fun _ => [UpdaterEvent.sample, UpdaterEvent.train])).count
        UpdaterEvent.train = l.length) := by
  induction l with
  | nil => exact ⟨rfl, rfl⟩
  | cons hd tl ih =>
    have h1 : List.count UpdaterEvent.sample [UpdaterEvent.sample, UpdaterEvent.train] = 1 :=
      rfl
    have h2 : List.count UpdaterEvent.train [UpdaterEvent.sample, UpdaterEvent.train] = 1 :=
      rfl
    simp only [List.flatMap_cons, List.count_append, List.length_cons, ih.1, ih.2, h1, h2]
    omega

/-- C9: `OffPolicyUpdater.update(global_step)` does nothing when
`global_step` is not divisible by `update_every`; otherwise it runs exactly
`int(update_per_step * update_every)` iterations, each one replay-buffer
sample followed by one `train_on_batch`. -/
theorem C9_offpolicy_update_gating (u : OffPolicyUpdater) (hu : 0 < u.update_every)
    (g : ℕ) :
    (¬ g % u.update_every = 0 → u.update g = [])
    ∧ (g % u.update_every = 0 →
        (u.update g).count UpdaterEvent.sample
            = pyInt (u.update_per_step * (u.update_every : ℚ))
        ∧ (u.update g).count UpdaterEvent.train
            = pyInt (u.update_per_step * (u.update_every : ℚ))) := by
  constructor
  · intro hne
    have hc : (g % u.update_every == 0) = false := by
      simpa using hne
    unfold OffPolicyUpdater.update
    rw [hc]
    simp
  · intro hdvd
    have hc : (g % u.update_every == 0) = true := by
      simpa using hdvd
    unfold OffPolicyUpdater.update
    rw [hc]
    simp only [if_pos]
    have := count_pair_flatMap (List.range (pyInt (u.update_per_step * (u.update_every : ℚ))))
    rw [List.length_range] at this
    exact this

theorem C9_witness :
    (0 < ({ update_per_step := 1 / 2, update_every := 4 } : OffPolicyUpdater).update_every)
    ∧ (¬ (3 : ℕ) % ({ update_per_step := 1 / 2, update_every := 4 } :
            OffPolicyUpdater).update_every = 0 →
        ({ update_per_step := 1 / 2, update_every := 4 } : OffPolicyUpdater).update 3 = [])
    ∧ ((8 : ℕ) % ({ update_per_step := 1 / 2, update_every := 4 } :
            OffPolicyUpdater).update_every = 0 →
        (({ update_per_step := 1 / 2, update_every := 4 } : OffPolicyUpdater).update 8).count
            UpdaterEvent.sample = pyInt ((1 / 2 : ℚ) * ((4 : ℕ) : ℚ))
        ∧ (({ update_per_step := 1 / 2, update_every := 4 } : OffPolicyUpdater).update 8).count
            UpdaterEvent.train = pyInt ((1 / 2 : ℚ) * ((4 : ℕ) : ℚ))) :=
  ⟨by decide,
    (C9_offpolicy_update_gating { update_per_step := 1 / 2, update_every := 4 }
      (by decide) 3).1,
    (C9_offpolicy_update_gating { update_per_step := 1 / 2, update_every := 4 }
      (by decide) 8).2⟩

end RLUtils
